import Mathlib

/-!
Verification of the agent handoff and context-continuity engine of the
personal-shopper / medical-office-triage voice-agent examples.

The embedded functions follow the Python sources:
  - `BaseAgent._truncate_chat_ctx` (identical in `personal_shopper.py` and
    `triage.py`)  →  `truncate_chat_ctx`
  - the merge step of `BaseAgent.on_enter`  →  `mergeContext`, `on_enter`
  - `BaseAgent._transfer_to_agent`  →  `transfer_to_agent`
  - `CustomerDatabase.get_or_create_customer`, `add_order`  →  same names
  - `SalesAgent.start_order`, `add_item_to_order`, `complete_order`,
    `TriageAgent.identify_customer`  →  same names
Python floats (item prices) are modelled as rationals; all values in the
claims are exactly representable.
-/

/-- A dialogue item as held in a chat context: a unique id, a type tag
(one of "message", "function_call", "function_call_output"), a role tag
(meaningful for messages: "system", "user" or "assistant") and content. -/
structure DialogueItem where
  id : String
  type : String
  role : String
  content : String
deriving DecidableEq

/-- Membership test `item.type in ["function_call", "function_call_output"]`
used both by `_valid_item` and by the orphaned-call post-processing loop. -/
def isCallType (t : String) : Bool :=
  t == "function_call" || t == "function_call_output"

/-- The inner `_valid_item` predicate of `_truncate_chat_ctx`: drop system
messages unless `keep_system_message`, drop function calls and their outputs
unless `keep_function_call`. -/
def validItem (keepSystem keepFunctionCall : Bool) (item : DialogueItem) : Bool :=
  if !keepSystem && item.type == "message" && item.role == "system" then false
  else if !keepFunctionCall && isCallType item.type then false
  else true

/-- The collection loop of `_truncate_chat_ctx`: iterate over the already
reversed history, append each valid item to the accumulator, and stop as soon
as the accumulator holds at least `keep` items (the Python loop checks the
bound after the conditional append, on every iteration). -/
def truncLoop (keep : Nat) (keepSystem keepFunctionCall : Bool) :
    List DialogueItem → List DialogueItem → List DialogueItem
  | acc, [] => acc
  | acc, item :: rest =>
    let acc2 := if validItem keepSystem keepFunctionCall item then acc ++ [item] else acc
    if keep ≤ acc2.length then acc2 else truncLoop keep keepSystem keepFunctionCall acc2 rest

/-- The post-processing loop of `_truncate_chat_ctx`: pop items from the front
while the first item is a function_call or a function_call_output. -/
def dropLeadingCalls : List DialogueItem → List DialogueItem
  | [] => []
  | it :: rest => if isCallType it.type then dropLeadingCalls rest else it :: rest

/-- `BaseAgent._truncate_chat_ctx`: scan the history from most recent to
oldest collecting valid items up to the bound, restore chronological order,
then drop leading call/call-output items. -/
def truncate_chat_ctx (items : List DialogueItem) (keep : Nat)
    (keepSystem keepFunctionCall : Bool) : List DialogueItem :=
  dropLeadingCalls ((truncLoop keep keepSystem keepFunctionCall [] items.reverse).reverse)

theorem truncLoop_append_sublist (keep : Nat) (ks kf : Bool)
    (l : List DialogueItem) : ∀ acc : List DialogueItem,
    ∃ s, truncLoop keep ks kf acc l = acc ++ s ∧ s.Sublist l := by
  induction l with
  | nil => intro acc; exact ⟨[], by simp [truncLoop], List.nil_sublist []⟩
  | cons item rest ih =>
    intro acc
    by_cases hv : validItem ks kf item
    · by_cases hb : keep ≤ acc.length + 1
      · have hstep : truncLoop keep ks kf acc (item :: rest) = acc ++ [item] := by
          simp [truncLoop, hv, hb]
        exact ⟨[item], hstep, (List.nil_sublist rest).cons₂ item⟩
      · have hstep : truncLoop keep ks kf acc (item :: rest)
            = truncLoop keep ks kf (acc ++ [item]) rest := by
          simp [truncLoop, hv, hb]
        obtain ⟨s, hs, hsub⟩ := ih (acc ++ [item])
        refine ⟨item :: s, ?_, hsub.cons₂ item⟩
        rw [hstep, hs, List.append_assoc]
        rfl
    · by_cases hb : keep ≤ acc.length
      · have hstep : truncLoop keep ks kf acc (item :: rest) = acc := by
          simp [truncLoop, hv, hb]
        exact ⟨[], by simpa using hstep, List.nil_sublist _⟩
      · have hstep : truncLoop keep ks kf acc (item :: rest)
            = truncLoop keep ks kf acc rest := by
          simp [truncLoop, hv, hb]
        obtain ⟨s, hs, hsub⟩ := ih acc
        exact ⟨s, by rw [hstep, hs], hsub.cons item⟩

theorem truncLoop_length_le (keep : Nat) (ks kf : Bool)
    (l : List DialogueItem) : ∀ acc : List DialogueItem, acc.length < keep →
    (truncLoop keep ks kf acc l).length ≤ keep := by
  induction l with
  | nil => intro acc h; simpa [truncLoop] using Nat.le_of_lt h
  | cons item rest ih =>
    intro acc h
    by_cases hv : validItem ks kf item
    · by_cases hb : keep ≤ acc.length + 1
      · have hstep : truncLoop keep ks kf acc (item :: rest) = acc ++ [item] := by
          simp [truncLoop, hv, hb]
        rw [hstep]
        simp only [List.length_append, List.length_singleton]
        omega
      · have hstep : truncLoop keep ks kf acc (item :: rest)
            = truncLoop keep ks kf (acc ++ [item]) rest := by
          simp [truncLoop, hv, hb]
        rw [hstep]
        exact ih (acc ++ [item]) (by simp; omega)
    · have hb : ¬ keep ≤ acc.length := Nat.not_le.mpr h
      have hstep : truncLoop keep ks kf acc (item :: rest)
          = truncLoop keep ks kf acc rest := by
        simp [truncLoop, hv, hb]
      rw [hstep]
      exact ih acc h

theorem dropLeadingCalls_sublist (l : List DialogueItem) :
    (dropLeadingCalls l).Sublist l := by
  induction l with
  | nil => simp [dropLeadingCalls]
  | cons it rest ih =>
    by_cases hc : isCallType it.type
    · simpa [dropLeadingCalls, hc] using ih.cons it
    · simp [dropLeadingCalls, hc]

theorem dropLeadingCalls_head (l : List DialogueItem) (it : DialogueItem)
    (rest : List DialogueItem) (h : dropLeadingCalls l = it :: rest) :
    isCallType it.type = false := by
  induction l with
  | nil => simp [dropLeadingCalls] at h
  | cons a tail ih =>
    by_cases hc : isCallType a.type
    · exact ih (by simpa [dropLeadingCalls, hc] using h)
    · rw [dropLeadingCalls, if_neg (by simpa using hc)] at h
      cases h
      simpa using hc

theorem truncate_chat_ctx_sublist (items : List DialogueItem) (keep : Nat)
    (ks kf : Bool) : (truncate_chat_ctx items keep ks kf).Sublist items := by
  obtain ⟨s, hs, hsub⟩ := truncLoop_append_sublist keep ks kf items.reverse []
  have h1 : (truncLoop keep ks kf [] items.reverse).reverse.Sublist items := by
    rw [hs, List.nil_append]
    simpa using hsub.reverse
  exact (dropLeadingCalls_sublist _).trans h1

theorem truncate_chat_ctx_length_le (items : List DialogueItem) (keep : Nat)
    (ks kf : Bool) (hk : 1 ≤ keep) :
    (truncate_chat_ctx items keep ks kf).length ≤ keep := by
  have h1 : (truncLoop keep ks kf [] items.reverse).length ≤ keep :=
    truncLoop_length_le keep ks kf items.reverse [] (by simpa using hk)
  have h2 := (dropLeadingCalls_sublist
    (truncLoop keep ks kf [] items.reverse).reverse).length_le
  simpa [truncate_chat_ctx] using le_trans h2 (by simpa using h1)

/-- C1: for every history, every keepCount `k ≥ 1` and every flag setting,
`truncate_chat_ctx` returns a subsequence of the history (items occur in the
original order) of length at most `k`. The original claim's range "every
`k ≥ 0`" fails at `k = 0`, see the counterexample. -/
theorem truncate_sublist_length_le (items : List DialogueItem) (keep : Nat)
    (ks kf : Bool) (hk : 1 ≤ keep) :
    (truncate_chat_ctx items keep ks kf).Sublist items ∧
    (truncate_chat_ctx items keep ks kf).length ≤ keep :=
  ⟨truncate_chat_ctx_sublist items keep ks kf,
   truncate_chat_ctx_length_le items keep ks kf hk⟩

/-- C1 witness: a concrete two-message history truncated with keepCount 6. -/
theorem truncate_sublist_length_le_witness :
    (1 : Nat) ≤ 6 ∧
    ((truncate_chat_ctx [⟨"u1", "message", "user", "hi"⟩,
        ⟨"a1", "message", "assistant", "hello"⟩] 6 false false).Sublist
      [⟨"u1", "message", "user", "hi"⟩, ⟨"a1", "message", "assistant", "hello"⟩] ∧
     (truncate_chat_ctx [⟨"u1", "message", "user", "hi"⟩,
        ⟨"a1", "message", "assistant", "hello"⟩] 6 false false).length ≤ 6) :=
  ⟨by decide,
   truncate_sublist_length_le [⟨"u1", "message", "user", "hi"⟩,
     ⟨"a1", "message", "assistant", "hello"⟩] 6 false false (by decide)⟩

/-- C1 counterexample: with keepCount 0 the Python loop appends the first
valid item before testing the bound, so a one-message history yields a
one-item result, violating the claimed bound `length ≤ 0`. -/
theorem truncate_keep_zero_counterexample :
    ¬ ((truncate_chat_ctx [⟨"u1", "message", "user", "hi"⟩] 0 false false).length ≤ 0) := by
  decide

/-- C2: whenever `truncate_chat_ctx` returns a non-empty sequence, its first
item is neither a function_call nor a function_call_output. -/
theorem truncate_head_not_function_call (items : List DialogueItem)
    (keep : Nat) (ks kf : Bool) (it : DialogueItem) (rest : List DialogueItem)
    (h : truncate_chat_ctx items keep ks kf = it :: rest) :
    it.type ≠ "function_call" ∧ it.type ≠ "function_call_output" := by
  have hcall := dropLeadingCalls_head _ it rest h
  simpa [isCallType] using hcall

/-- C2 witness: on a concrete history starting with a function call, the
truncated result is non-empty and its head is a plain message. -/
theorem truncate_head_not_function_call_witness :
    truncate_chat_ctx [⟨"f1", "function_call", "", "lookup"⟩,
        ⟨"u1", "message", "user", "hi"⟩] 6 false true =
      [⟨"u1", "message", "user", "hi"⟩] ∧
    (DialogueItem.mk "u1" "message" "user" "hi").type ≠ "function_call" ∧
    (DialogueItem.mk "u1" "message" "user" "hi").type ≠ "function_call_output" :=
  ⟨by decide,
   truncate_head_not_function_call [⟨"f1", "function_call", "", "lookup"⟩,
     ⟨"u1", "message", "user", "hi"⟩] 6 false true
     ⟨"u1", "message", "user", "hi"⟩ [] (by decide)⟩

/-- The merge step of `BaseAgent.on_enter` (lines 74-78 / 44-48): truncate the
previous agent's items with `keep_function_call = true` and the default bound
of 6, collect the ids already present in the copied own context, and append
only truncated items whose id is not already present. -/
def mergeContext (own prev : List DialogueItem) : List DialogueItem :=
  let itemsCopy := truncate_chat_ctx prev 6 false true
  let existingIds := own.map DialogueItem.id
  own ++ itemsCopy.filter (fun it => decide (it.id ∉ existingIds))

/-- The state visible to `on_enter`: the entering role's own chat context and
the previous role's history (`userdata.prev_agent`), absent at conversation
start. -/
structure SessionState where
  prevHistory : Option (List DialogueItem)
  ownContext : List DialogueItem
deriving DecidableEq

/-- `BaseAgent.on_enter` restricted to its context manipulation: copy the own
context, merge the truncated previous history into the copy when a previous
agent exists, append the system summary message, and commit the copy. The
previous role's history is only read. -/
def on_enter (s : SessionState) (sysMsg : DialogueItem) : SessionState :=
  let ctx :=
    match s.prevHistory with
    | some prev => mergeContext s.ownContext prev
    | none => s.ownContext
  { prevHistory := s.prevHistory, ownContext := ctx ++ [sysMsg] }

/-- C3: if the entering role's copied context has pairwise-distinct item ids
and the previous role's history has pairwise-distinct item ids, then after the
merge no two items of the merged context share an id. -/
theorem mergeContext_nodup_ids (own prev : List DialogueItem)
    (hown : (own.map DialogueItem.id).Nodup)
    (hprev : (prev.map DialogueItem.id).Nodup) :
    ((mergeContext own prev).map DialogueItem.id).Nodup := by
  have hsubfilter : (truncate_chat_ctx prev 6 false true).filter
      (fun it => decide (it.id ∉ own.map DialogueItem.id)) |>.Sublist prev :=
    (List.filter_sublist _).trans (truncate_chat_ctx_sublist prev 6 false true)
  have hfilter_nodup : (((truncate_chat_ctx prev 6 false true).filter
      (fun it => decide (it.id ∉ own.map DialogueItem.id))).map DialogueItem.id).Nodup :=
    hprev.sublist (hsubfilter.map DialogueItem.id)
  have hdisj : (own.map DialogueItem.id).Disjoint
      (((truncate_chat_ctx prev 6 false true).filter
        (fun it => decide (it.id ∉ own.map DialogueItem.id))).map DialogueItem.id) := by
    intro a ha hb
    obtain ⟨it, hmem, hid⟩ := List.mem_map.mp hb
    have hpred := (List.mem_filter.mp hmem).2
    have : it.id ∉ own.map DialogueItem.id := of_decide_eq_true hpred
    exact this (hid ▸ ha)
  simp only [mergeContext, List.map_append]
  exact List.nodup_append.mpr ⟨hown, hfilter_nodup, hdisj⟩

/-- C3 witness: a concrete merge where the previous history shares one id
with the entering role's context. -/
theorem mergeContext_nodup_ids_witness :
    (([⟨"a1", "message", "assistant", "hi"⟩,
       ⟨"u1", "message", "user", "hello"⟩] :
        List DialogueItem).map DialogueItem.id).Nodup ∧
    (([⟨"u1", "message", "user", "hello"⟩,
       ⟨"u2", "message", "user", "again"⟩] :
        List DialogueItem).map DialogueItem.id).Nodup ∧
    ((mergeContext
        [⟨"a1", "message", "assistant", "hi"⟩, ⟨"u1", "message", "user", "hello"⟩]
        [⟨"u1", "message", "user", "hello"⟩, ⟨"u2", "message", "user", "again"⟩]).map
      DialogueItem.id).Nodup :=
  ⟨by decide, by decide,
   mergeContext_nodup_ids
     [⟨"a1", "message", "assistant", "hi"⟩, ⟨"u1", "message", "user", "hello"⟩]
     [⟨"u1", "message", "user", "hello"⟩, ⟨"u2", "message", "user", "again"⟩]
     (by decide) (by decide)⟩

/-- C4: `on_enter` never writes the previous role's history — the frozen
predecessor history field is unchanged by the call — and the merge only
appends to the entering role's own context (the own context is a prefix of
the merged result), reflecting that `_truncate_chat_ctx` builds a fresh list
and never mutates its input. -/
theorem on_enter_preserves_prev_history (s : SessionState) (sysMsg : DialogueItem) :
    (on_enter s sysMsg).prevHistory = s.prevHistory ∧
    (∀ own prev : List DialogueItem, ∃ tail, mergeContext own prev = own ++ tail) :=
  ⟨rfl, fun own prev =>
    ⟨(truncate_chat_ctx prev 6 false true).filter
      (fun it => decide (it.id ∉ own.map DialogueItem.id)), rfl⟩⟩

/-- A raw dialogue item as Python sees it: attribute lookups are dynamic, so
each field may be missing on a malformed object. Accessing a missing field
raises (AttributeError in Python), modelled by `Except`. -/
structure RawItem where
  rawId : Option String
  rawType : Option String
  rawRole : Option String
deriving DecidableEq

/-- The failure raised when the merge touches a malformed item. -/
inductive MergeError where
  | attributeError : MergeError
deriving DecidableEq

/-- Read `item.id`, raising on a malformed item. -/
def RawItem.getId : RawItem → Except MergeError String
  | ⟨some i, _, _⟩ => Except.ok i
  | ⟨none, _, _⟩ => Except.error MergeError.attributeError

/-- Read `item.type`, raising on a malformed item. -/
def RawItem.getType : RawItem → Except MergeError String
  | ⟨_, some t, _⟩ => Except.ok t
  | ⟨_, none, _⟩ => Except.error MergeError.attributeError

/-- Read `item.role`, raising on a malformed item. -/
def RawItem.getRole : RawItem → Except MergeError String
  | ⟨_, _, some r⟩ => Except.ok r
  | ⟨_, _, none⟩ => Except.error MergeError.attributeError

/-- `_valid_item` over raw items: `item.role` is only read when the type tag
is "message" (Python's short-circuit evaluation), and any attribute access may
raise. -/
def validItemE (ks kf : Bool) (it : RawItem) : Except MergeError Bool := do
  let t ← it.getType
  let isSys ←
    if !ks && t == "message" then do
      let r ← it.getRole
      pure (r == "system")
    else pure false
  if isSys then
    return false
  if !kf && isCallType t then
    return false
  return true

/-- The collection loop of `_truncate_chat_ctx` over raw items. -/
def truncLoopE (keep : Nat) (ks kf : Bool) :
    List RawItem → List RawItem → Except MergeError (List RawItem)
  | acc, [] => Except.ok acc
  | acc, item :: rest => do
    let v ← validItemE ks kf item
    let acc2 := if v then acc ++ [item] else acc
    if keep ≤ acc2.length then Except.ok acc2 else truncLoopE keep ks kf acc2 rest

/-- The orphaned-call dropping loop over raw items. -/
def dropLeadingCallsE : List RawItem → Except MergeError (List RawItem)
  | [] => Except.ok []
  | it :: rest => do
    let t ← it.getType
    if isCallType t then dropLeadingCallsE rest else Except.ok (it :: rest)

/-- `_truncate_chat_ctx` over raw items. -/
def truncateE (items : List RawItem) (keep : Nat) (ks kf : Bool) :
    Except MergeError (List RawItem) := do
  let collected ← truncLoopE keep ks kf [] items.reverse
  dropLeadingCallsE collected.reverse

/-- The filtering comprehension of `on_enter`: keep the truncated items whose
id is not among the ids already present, reading `item.id` left to right. -/
def filterNewIds (ids : List String) : List RawItem → Except MergeError (List RawItem)
  | [] => Except.ok []
  | it :: rest => do
    let i ← it.getId
    let tail ← filterNewIds ids rest
    if ids.contains i then pure tail else pure (it :: tail)

/-- The whole merge pipeline of `on_enter` over raw items: truncate the
previous history, collect the existing ids of the own context, filter, and
extend the own context. -/
def mergeE (own prev : List RawItem) : Except MergeError (List RawItem) := do
  let itemsCopy ← truncateE prev 6 false true
  let existingIds ← own.mapM RawItem.getId
  let filtered ← filterNewIds existingIds itemsCopy
  pure (own ++ filtered)

/-- The context manipulation of `on_enter` over raw items: `on_enter` runs the
merge with no surrounding exception handler, then appends the system summary
message. -/
def on_enterE (own : List RawItem) (prev : Option (List RawItem))
    (sysMsg : RawItem) : Except MergeError (List RawItem) := do
  let ctx ←
    match prev with
    | some p => mergeE own p
    | none => pure own
  pure (ctx ++ [sysMsg])

/-- C5 (amended): `on_enter` contains no handler around the merge, so a merge
failure propagates out of `on_enter` unchanged — there is no fallback to the
role's own untouched context and no warning; role entry is blocked by the
raised error. -/
theorem on_enter_merge_failure_propagates (own p : List RawItem)
    (sysMsg : RawItem) (e : MergeError) (h : mergeE own p = Except.error e) :
    on_enterE own (some p) sysMsg = Except.error e := by
  simp only [on_enterE, h, bind]
  rfl

/-- C5 witness: a previous history holding one item without an id makes the
merge fail, and `on_enter` propagates that failure. -/
theorem on_enter_merge_failure_propagates_witness :
    mergeE [] [⟨none, some "message", some "user"⟩] =
      Except.error MergeError.attributeError ∧
    on_enterE [] (some [⟨none, some "message", some "user"⟩])
        ⟨some "s1", some "message", some "system"⟩ =
      Except.error MergeError.attributeError :=
  ⟨rfl,
   on_enter_merge_failure_propagates [] [⟨none, some "message", some "user"⟩]
     ⟨some "s1", some "message", some "system"⟩ MergeError.attributeError rfl⟩

/-- C5 counterexample: the claim predicts that on a malformed previous history
`on_enter` falls back to the role's own untouched context and entry proceeds,
i.e. the result would be the own context plus the system summary message. On
a concrete malformed history the code instead propagates the error. -/
theorem on_enter_merge_failure_counterexample :
    on_enterE [] (some [⟨none, some "message", some "user"⟩])
        ⟨some "s1", some "message", some "system"⟩ =
      Except.error MergeError.attributeError ∧
    on_enterE [] (some [⟨none, some "message", some "user"⟩])
        ⟨some "s1", some "message", some "system"⟩ ≠
      Except.ok ([] ++ [⟨some "s1", some "message", some "system"⟩]) := by
  refine ⟨rfl, ?_⟩
  intro h
  rw [show on_enterE [] (some [⟨none, some "message", some "user"⟩])
      ⟨some "s1", some "message", some "system"⟩ =
    Except.error MergeError.attributeError from rfl] at h
  exact Except.noConfusion h

/-- Errors raised when resolving a transfer. -/
inductive TransferError where
  | unknownAction : TransferError
  | unknownRole : TransferError
deriving DecidableEq

/-- The handoff-relevant session state: the active role name, the
`prev_agent` back-reference, the active role's table of transfer actions
(action name to target role name), and the keys of the `personas` registry. -/
structure RoleState where
  activeRole : String
  prevAgent : Option String
  transferActions : List (String × String)
  personas : List String
deriving DecidableEq

/-- Modelled from the spec: the action-name resolution against the active
role's `transferActions` (step 1 of the handoff contract) is performed by the
external tool-dispatch layer, not by code under `src/`; it fails with
`UnknownActionError` before any state is touched. The remainder follows
`BaseAgent._transfer_to_agent`: the target is looked up in `personas` (a
failing lookup raises before `prev_agent` is assigned), and only a successful
lookup records the current role as previous and activates the target. -/
def transfer_to_agent (s : RoleState) (actionName : String) :
    Except TransferError String × RoleState :=
  match s.transferActions.find? (fun p => p.1 == actionName) with
  | none => (Except.error TransferError.unknownAction, s)
  | some act =>
    if s.personas.contains act.2 then
      (Except.ok act.2,
       { s with prevAgent := some s.activeRole, activeRole := act.2 })
    else (Except.error TransferError.unknownRole, s)

/-- C6: a transfer whose resolution fails — unknown action name, or an action
whose target role is not registered — returns the matching error and leaves
the whole role state (in particular the active role and the `prev_agent`
back-reference) unchanged. -/
theorem transfer_unknown_leaves_state (s : RoleState) (a : String) :
    (s.transferActions.find? (fun p => p.1 == a) = none →
      transfer_to_agent s a = (Except.error TransferError.unknownAction, s)) ∧
    (∀ act, s.transferActions.find? (fun p => p.1 == a) = some act →
      s.personas.contains act.2 = false →
      transfer_to_agent s a = (Except.error TransferError.unknownRole, s)) := by
  constructor
  · intro h
    simp [transfer_to_agent, h]
  · intro act h hy
    have hy2 : act.2 ∉ s.personas := by simpa using hy
    simp [transfer_to_agent, h, hy2]

/-- C6 witness: a role whose only action targets an unregistered role, probed
with an unknown action name and with the misconfigured action. -/
theorem transfer_unknown_leaves_state_witness :
    (RoleState.mk "triage" none [("transfer_to_sales", "sales")]
        ["triage", "returns"]).transferActions.find?
      (fun p => p.1 == "transfer_to_billing") = none ∧
    transfer_to_agent
        (RoleState.mk "triage" none [("transfer_to_sales", "sales")]
          ["triage", "returns"]) "transfer_to_billing" =
      (Except.error TransferError.unknownAction,
       RoleState.mk "triage" none [("transfer_to_sales", "sales")]
         ["triage", "returns"]) :=
  ⟨by decide,
   (transfer_unknown_leaves_state
     (RoleState.mk "triage" none [("transfer_to_sales", "sales")]
       ["triage", "returns"]) "transfer_to_billing").1 (by decide)⟩

/-- A customer row of the `customers` table. -/
structure Customer where
  id : Nat
  firstName : String
  lastName : String
deriving DecidableEq

/-- A line item of an order, as added by `add_item_to_order`. Prices are
Python floats, modelled as rationals. -/
structure OrderItem where
  name : String
  quantity : Int
  price : ℚ
deriving DecidableEq

/-- The in-progress order dict: its "items" list and the "total" key set by
`complete_order` just before persisting. -/
structure Order where
  items : List OrderItem
  total : Option ℚ
deriving DecidableEq

/-- A persisted row of the `orders` table. -/
structure OrderRecord where
  customerId : Option Nat
  details : Order
deriving DecidableEq

/-- The state of the SQLite store: the `customers` and `orders` tables in
insertion order; autoincrement ids. -/
structure Db where
  customers : List Customer
  orders : List OrderRecord
deriving DecidableEq

/-- `CustomerDatabase.get_or_create_customer`: return the id of the first
matching customer row, otherwise insert a fresh row with the next
autoincrement id and return that id. -/
def get_or_create_customer (db : Db) (first last : String) : Nat × Db :=
  match db.customers.find? (fun c => c.firstName == first && c.lastName == last) with
  | some c => (c.id, db)
  | none =>
    let newId := (db.customers.map Customer.id).foldr max 0 + 1
    (newId, { db with customers := db.customers ++ [⟨newId, first, last⟩] })

/-- `CustomerDatabase.add_order`: insert an order row and return its id. -/
def add_order (db : Db) (cid : Option Nat) (ord : Order) : Nat × Db :=
  (db.orders.length + 1, { db with orders := db.orders ++ [⟨cid, ord⟩] })

/-- Per-call user data of the personal shopper (`UserData`): the customer
identity fields and the in-progress order. -/
structure UserData where
  firstName : Option String
  lastName : Option String
  customerId : Option Nat
  currentOrder : Option Order
deriving DecidableEq

/-- `UserData.is_identified`: both name fields are present. -/
def UserData.is_identified (u : UserData) : Bool :=
  u.firstName.isSome && u.lastName.isSome

/-- `TriageAgent.identify_customer` (identical in the other roles): store the
names, resolve the customer id through the database, and keep the rest of the
user data. -/
def identify_customer (u : UserData) (db : Db) (first last : String) :
    UserData × Db :=
  let res := get_or_create_customer db first last
  ({ u with firstName := some first, lastName := some last,
            customerId := some res.1 }, res.2)

/-- The distinct return messages of the order tools, standing for the Python
return strings: the identification request, the empty-order message, the
order-started message, the item-added message, and the completed-order
summary (order id, total, line items). -/
inductive OrderMsg where
  | askIdentify : OrderMsg
  | emptyOrder : OrderMsg
  | orderStarted : OrderMsg
  | itemAdded (quantity : Int) (name : String) : OrderMsg
  | orderSummary (orderId : Nat) (total : ℚ) (items : List OrderItem) : OrderMsg
deriving DecidableEq

/-- `SalesAgent.start_order`: refuse without identification, otherwise reset
the current order to an empty item list. -/
def start_order (u : UserData) : OrderMsg × UserData :=
  if !u.is_identified then (OrderMsg.askIdentify, u)
  else (OrderMsg.orderStarted, { u with currentOrder := some ⟨[], none⟩ })

/-- `SalesAgent.add_item_to_order`: refuse without identification, create the
order if absent, then append the line item. -/
def add_item_to_order (u : UserData) (name : String) (quantity : Int)
    (price : ℚ) : OrderMsg × UserData :=
  if !u.is_identified then (OrderMsg.askIdentify, u)
  else
    let ord := match u.currentOrder with
      | none => (⟨[], none⟩ : Order)
      | some o => o
    (OrderMsg.itemAdded quantity name,
     { u with currentOrder := some { ord with items := ord.items ++ [⟨name, quantity, price⟩] } })

/-- The order total as computed by `complete_order`:
`sum(item["price"] * item["quantity"] for item in items)`. -/
def order_total (ord : Order) : ℚ :=
  (ord.items.map (fun it => it.price * (it.quantity : ℚ))).sum

/-- `SalesAgent.complete_order`: refuse without identification; refuse when
the current order is absent or has no items; otherwise write the total into
the order, persist it through `add_order`, return the summary and clear the
current order. -/
def complete_order (u : UserData) (db : Db) : OrderMsg × UserData × Db :=
  if !u.is_identified then (OrderMsg.askIdentify, u, db)
  else
    match u.currentOrder with
    | none => (OrderMsg.emptyOrder, u, db)
    | some ord =>
      if ord.items.isEmpty then (OrderMsg.emptyOrder, u, db)
      else
        let total := order_total ord
        let ord2 := { ord with total := some total }
        let res := add_order db u.customerId ord2
        (OrderMsg.orderSummary res.1 total ord2.items,
         { u with currentOrder := none }, res.2)

theorem find?_append_of_none {α : Type} (p : α → Bool) (l1 l2 : List α)
    (h : l1.find? p = none) : (l1 ++ l2).find? p = l2.find? p := by
  induction l1 with
  | nil => rfl
  | cons a t ih =>
    cases hpa : p a with
    | true =>
      rw [List.find?_cons_of_pos _ hpa] at h
      exact absurd h (by simp)
    | false =>
      have hna : ¬ p a = true := by simp [hpa]
      rw [List.find?_cons_of_neg _ hna] at h
      rw [List.cons_append, List.find?_cons_of_neg _ hna]
      exact ih h

theorem get_or_create_customer_stable (db : Db) (first last : String) :
    get_or_create_customer (get_or_create_customer db first last).2 first last =
      get_or_create_customer db first last := by
  cases hf : db.customers.find? (fun c => c.firstName == first && c.lastName == last) with
  | some c => simp [get_or_create_customer, hf]
  | none =>
    have hfind2 : List.find? (fun c => c.firstName == first && c.lastName == last)
        (db.customers ++
          [Customer.mk ((db.customers.map Customer.id).foldr max 0 + 1) first last]) =
        some (Customer.mk ((db.customers.map Customer.id).foldr max 0 + 1) first last) := by
      rw [find?_append_of_none _ _ _ hf, List.find?_cons_of_pos _ (by simp)]
    simp [get_or_create_customer, hf, hfind2]

/-- C9: identifying a customer twice with the same first and last name
resolves to the same customer id both times, and the second call leaves the
database unchanged — it finds the existing customer instead of creating a
new one. -/
theorem identify_customer_idempotent (u : UserData) (db : Db)
    (first last : String) :
    (identify_customer (identify_customer u db first last).1
        (identify_customer u db first last).2 first last).1.customerId =
      (identify_customer u db first last).1.customerId ∧
    (identify_customer (identify_customer u db first last).1
        (identify_customer u db first last).2 first last).2 =
      (identify_customer u db first last).2 := by
  simp [identify_customer, get_or_create_customer_stable]

/-- Fixture: a two-line order (2 × 100 and 1 × 50). -/
def sampleItems : List OrderItem := [⟨"apple", 2, 100⟩, ⟨"pen", 1, 50⟩]

/-- Fixture: the in-progress order holding `sampleItems`. -/
def sampleOrder : Order := ⟨sampleItems, none⟩

/-- Fixture: an identified customer with `sampleOrder` in progress. -/
def sampleUser : UserData := ⟨some "Taro", some "Yamada", some 1, some sampleOrder⟩

/-- Fixture: a store with one customer row and no orders. -/
def sampleDb : Db := ⟨[⟨1, "Taro", "Yamada"⟩], []⟩

/-- C7: for an identified customer with a non-empty active order,
`complete_order` computes the total as the sum of quantity times price over
all items, persists the totalled order through the store, and clears the
current order. -/
theorem complete_order_success (u : UserData) (db : Db) (ord : Order)
    (hid : u.is_identified = true) (ho : u.currentOrder = some ord)
    (hne : ord.items ≠ []) :
    complete_order u db =
      (OrderMsg.orderSummary (db.orders.length + 1) (order_total ord) ord.items,
       { u with currentOrder := none },
       { db with orders := db.orders ++
           [⟨u.customerId, { ord with total := some (order_total ord) }⟩] }) := by
  have hi : ord.items.isEmpty = false := by
    cases hitems : ord.items with
    | nil => exact absurd hitems hne
    | cons a t => rfl
  simp [complete_order, hid, ho, hi, add_order]

/-- C7 witness: the order [(qty 2, price 100), (qty 1, price 50)] totals 250,
is persisted, and the current order is cleared. -/
theorem complete_order_success_witness :
    sampleUser.is_identified = true ∧
    sampleUser.currentOrder = some sampleOrder ∧
    sampleOrder.items ≠ [] ∧
    order_total sampleOrder = 250 ∧
    complete_order sampleUser sampleDb =
      (OrderMsg.orderSummary 1 (order_total sampleOrder) sampleOrder.items,
       { sampleUser with currentOrder := none },
       { sampleDb with orders :=
           [⟨some 1, { sampleOrder with total := some (order_total sampleOrder) }⟩] }) :=
  ⟨by decide, rfl, by simp [sampleOrder, sampleItems],
   by norm_num [order_total, sampleOrder, sampleItems], by
    have h := complete_order_success sampleUser sampleDb sampleOrder
      (by decide) rfl (by simp [sampleOrder, sampleItems])
    simpa [sampleDb] using h⟩

/-- C8: an identified customer whose current order is absent or holds no
items gets the empty-order refusal and the user data and store are untouched
(in particular `add_order` is never reached); an unidentified customer gets
the identification request, also with everything untouched. -/
theorem complete_order_guard_errors (u : UserData) (db : Db) :
    (u.is_identified = true →
      (u.currentOrder = none ∨ ∃ ord, u.currentOrder = some ord ∧ ord.items = []) →
      complete_order u db = (OrderMsg.emptyOrder, u, db)) ∧
    (u.is_identified = false →
      complete_order u db = (OrderMsg.askIdentify, u, db)) := by
  constructor
  · intro hid he
    rcases he with he | ⟨ord, ho, hitems⟩
    · simp [complete_order, hid, he]
    · simp [complete_order, hid, ho, hitems]
  · intro hid
    simp [complete_order, hid]

/-- C8 witness: an identified customer with an itemless order is refused and
nothing changes. -/
theorem complete_order_guard_errors_witness :
    (UserData.mk (some "Taro") (some "Yamada") (some 1)
        (some ⟨[], none⟩)).is_identified = true ∧
    complete_order
        (UserData.mk (some "Taro") (some "Yamada") (some 1) (some ⟨[], none⟩))
        sampleDb =
      (OrderMsg.emptyOrder,
       UserData.mk (some "Taro") (some "Yamada") (some 1) (some ⟨[], none⟩),
       sampleDb) :=
  ⟨by decide,
   (complete_order_guard_errors
     (UserData.mk (some "Taro") (some "Yamada") (some 1) (some ⟨[], none⟩))
     sampleDb).1 (by decide) (Or.inr ⟨⟨[], none⟩, rfl, rfl⟩)⟩

/-- C10: while the customer is not identified (first or last name absent),
`start_order`, `add_item_to_order` and `complete_order` all return the
identification request and leave the user data and the store unchanged. -/
theorem order_ops_require_identification (u : UserData) (db : Db)
    (itemName : String) (quantity : Int) (price : ℚ)
    (h : u.firstName = none ∨ u.lastName = none) :
    start_order u = (OrderMsg.askIdentify, u) ∧
    add_item_to_order u itemName quantity price = (OrderMsg.askIdentify, u) ∧
    complete_order u db = (OrderMsg.askIdentify, u, db) := by
  have hid : u.is_identified = false := by
    rcases h with h | h <;> simp [UserData.is_identified, h]
  exact ⟨by simp [start_order, hid], by simp [add_item_to_order, hid],
    by simp [complete_order, hid]⟩

/-- C10 witness: a customer with no first name is turned away by all three
order operations. -/
theorem order_ops_require_identification_witness :
    ((UserData.mk none (some "Yamada") none none).firstName = none ∨
      (UserData.mk none (some "Yamada") none none).lastName = none) ∧
    (start_order (UserData.mk none (some "Yamada") none none) =
        (OrderMsg.askIdentify, UserData.mk none (some "Yamada") none none) ∧
     add_item_to_order (UserData.mk none (some "Yamada") none none)
        "apple" 2 100 =
        (OrderMsg.askIdentify, UserData.mk none (some "Yamada") none none) ∧
     complete_order (UserData.mk none (some "Yamada") none none) sampleDb =
        (OrderMsg.askIdentify, UserData.mk none (some "Yamada") none none,
         sampleDb)) :=
  ⟨Or.inl rfl,
   order_ops_require_identification (UserData.mk none (some "Yamada") none none)
     sampleDb "apple" 2 100 (Or.inl rfl)⟩
